import Mathlib

/-!
Verification of the embedded scripting runtime of Squad-Party
(src/unnamed/part_003: LuaInterpreter / createGameRunner over fengari).

The TypeScript source is shallowly embedded: JS/Lua values become inductive
types, the fengari value stack becomes an explicit list, and guest scripts
are abstracted by what luaL_dostring leaves behind (globals plus the code of
the functions it defined).  JS numbers are carried by rationals: the
marshaling layer never does arithmetic on them, it only moves them across
the boundary and compares them for equality, so an exact numeric carrier is
faithful.  JS null and undefined are both modelled as vnull: every use site
in the source (truthiness tests, nullish coalescing, property access) treats
them identically.
-/

set_option autoImplicit false

namespace SquadParty

/-- Keys of a guest (Lua) table: numbers or strings, the only key types the
marshaling layer can meet (pushValue only ever creates string keys, and
getTable reads keys with lua_tonumber / lua_tojsstring). -/
inductive LuaKey where
  | knum (q : ℚ)
  | kstr (s : String)
  deriving DecidableEq

/-- Identifier of a guest function: guest closures are referenced by id and
resolved through the engine environment set up at load time. -/
abbrev FuncId := Nat

/-- A guest value as seen through the fengari stack API.  A table carries its
entry list in lua_next iteration order (the engine iterates a table
deterministically; the order is fixed by how the guest built the table, not
re-sorted by the API).  Keys of one table are distinct.  lother stands for
userdata/thread values, which the marshaling layer maps to null. -/
inductive LuaValue where
  | nil
  | lbool (b : Bool)
  | lnum (q : ℚ)
  | lstr (s : String)
  | ltable (entries : List (LuaKey × LuaValue))
  | lfunc (f : FuncId)
  | lother

/-- A host (JS) value: vrecord is a plain object with its fields in property
insertion order, varr is an array.  vnull conflates null and undefined. -/
inductive HostValue where
  | vnull
  | vbool (b : Bool)
  | vnum (q : ℚ)
  | vstr (s : String)
  | vrecord (fields : List (String × HostValue))
  | varr (elems : List HostValue)

/-! ### JS number-to-string

JS renders an integral number in plain decimal, which is what matters here:
the only collisions the code can see are between a numeric table key and a
string table key, and the keys the runtime actually produces are integral.
The decimal conversion is written with structural fuel so that it evaluates
inside the kernel; a non-integral rational is rendered as num/den, an
abstraction of the JS decimal rendering that no claim inspects. -/

/-- The decimal digit character for d < 10. -/
def decDigit (d : Nat) : Char := Char.ofNat (48 + d)

/-- Decimal digits of n, most significant first, with structural fuel. -/
def decChars : Nat → Nat → List Char
  | 0, _ => []
  | fuel + 1, n => if n < 10 then [decDigit n] else decChars fuel (n / 10) ++ [decDigit (n % 10)]

/-- Decimal string of a natural number (fuel n+1 always suffices). -/
def decStr (n : Nat) : String := ⟨decChars (n + 1) n⟩

/-- Decimal string of an integer. -/
def intStr : Int → String
  | .ofNat n => decStr n
  | .negSucc n => "-" ++ decStr (n + 1)

/-- JS ToString on a number, restricted to the rational carrier. -/
def numToStr (q : ℚ) : String :=
  if q.den = 1 then intStr q.num else intStr q.num ++ "/" ++ decStr q.den

/-- The JS string a Lua table key turns into when used as a JS object key
(result[key] in getTable coerces a numeric key through ToString). -/
def jsKeyOf : LuaKey → String
  | .knum q => numToStr q
  | .kstr s => s

/-! ### Injectivity of the decimal rendering

Needed to know that the object keys "1" .. "N" built by the dense-array
branch of getTable never collide.  Proved by exhibiting the base-10 value
function as a left inverse. -/

/-- Reads a digit string back as a number; left inverse of decChars. -/
def valChars (cs : List Char) : Nat :=
  cs.foldl (fun acc c => 10 * acc + (c.toNat - 48)) 0

theorem valChars_append (a b : List Char) :
    valChars (a ++ b) = b.foldl (fun acc c => 10 * acc + (c.toNat - 48)) (valChars a) := by
  simp [valChars, List.foldl_append]

theorem toNat_decDigit (d : Nat) (h : d < 10) : (decDigit d).toNat = 48 + d := by
  interval_cases d <;> rfl

theorem valChars_decChars (fuel n : Nat) (h : n < fuel) :
    valChars (decChars fuel n) = n := by
  induction fuel generalizing n with
  | zero => omega
  | succ fuel ih =>
    rw [decChars]
    by_cases h10 : n < 10
    · simp only [if_pos h10, valChars, List.foldl]
      rw [toNat_decDigit n h10]
      omega
    · have hdiv : n / 10 < fuel := by omega
      rw [if_neg h10, valChars_append, ih _ hdiv]
      simp only [List.foldl]
      rw [toNat_decDigit (n % 10) (by omega)]
      omega

theorem decStr_injective : Function.Injective decStr := by
  intro a b hab
  have h : valChars (decChars (a + 1) a) = valChars (decChars (b + 1) b) := by
    have : decChars (a + 1) a = decChars (b + 1) b := congrArg String.data hab
    rw [this]
  rwa [valChars_decChars _ _ (Nat.lt_succ_self a),
       valChars_decChars _ _ (Nat.lt_succ_self b)] at h

theorem numToStr_natCast (n : Nat) : numToStr (n : ℚ) = decStr n := by
  simp [numToStr, intStr, Rat.den_natCast, Rat.num_natCast]

/-! ### JS helpers used by the facade (truthiness, property access) -/

/-- JS truthiness of a value: the test behind result || fallback.  Objects
(records and arrays) are always truthy, even when empty. -/
def jsTruthy : HostValue → Bool
  | .vnull => false
  | .vbool b => b
  | .vnum q => if q = 0 then false else true
  | .vstr s => if s = "" then false else true
  | .vrecord _ => true
  | .varr _ => true

/-- The typeof v === "object" test after a truthiness guard: true exactly for
records and arrays (null is already ruled out by the guard in the source). -/
def jsIsObject : HostValue → Bool
  | .vrecord _ => true
  | .varr _ => true
  | _ => false

/-- JS property read v.k: a missing field, or a read on a non-object, gives
undefined (vnull here). -/
def objGet (v : HostValue) (k : String) : HostValue :=
  match v with
  | .vrecord fields => go fields
  | _ => .vnull
where
  go : List (String × HostValue) → HostValue
    | [] => .vnull
    | (k2, v2) :: rest => if k2 = k then v2 else go rest

/-- JS property write obj[k] = v on a plain object: overwrites in place if the
key exists, otherwise appends (JS objects keep the original position of an
overwritten key). -/
def objSet (fields : List (String × HostValue)) (k : String) (v : HostValue) :
    List (String × HostValue) :=
  match fields with
  | [] => [(k, v)]
  | (k2, v2) :: rest => if k2 = k then (k2, v) :: rest else (k2, v2) :: objSet rest k v

/-! ### Value marshaling: host to guest

LuaInterpreter.pushValue (part_003 lines 105-122), modelled as the single
value the call leaves on the stack (its transient table-building pushes are
balanced).  The object branch enumerates the JS value with Object.entries,
which yields STRING keys: an array arrives as index strings "0", "1", ...,
and lua_settable with a nil value stores nothing (setting a table field to
nil is deletion in Lua), so null-valued fields vanish. -/

mutual

def pushValue : HostValue → LuaValue
  | .vnull => .nil
  | .vbool b => .lbool b
  | .vnum q => .lnum q
  | .vstr s => .lstr s
  | .vrecord fields => .ltable (pushFields fields)
  | .varr elems => .ltable (pushElems 0 elems)

/-- Entries a record contributes to the fresh table: string keys, nil-valued
fields dropped by lua_settable. -/
def pushFields : List (String × HostValue) → List (LuaKey × LuaValue)
  | [] => []
  | (k, v) :: rest =>
    match pushValue v with
    | .nil => pushFields rest
    | gv => (.kstr k, gv) :: pushFields rest

/-- Entries an array contributes: Object.entries gives the index strings
"0", "1", ... as keys. -/
def pushElems (i : Nat) : List HostValue → List (LuaKey × LuaValue)
  | [] => []
  | v :: rest =>
    match pushValue v with
    | .nil => pushElems (i + 1) rest
    | gv => (.kstr (decStr i), gv) :: pushElems (i + 1) rest

end

/-! ### Value marshaling: guest to host

LuaInterpreter.getValue / getTable (part_003 lines 124-172).  getTable walks
the table with lua_next, building a JS object while tracking whether the
keys seen so far are exactly the numbers 1, 2, ... in iteration order; at
the end a non-empty all-sequential table is returned as Object.values of the
accumulated object.  In that branch the accumulated keys are the strings
"1" .. "N" inserted in ascending order, which is exactly the JS enumeration
order, so Object.values is the accumulated values in insertion order. -/

/-- The loop state of getTable: the JS object built so far, the isArray flag
and the expected next sequential numeric key. -/
structure TableAcc where
  result : List (String × HostValue)
  isArray : Bool
  arrayIndex : ℚ

mutual

def getValue : LuaValue → HostValue
  | .nil => .vnull
  | .lbool b => .vbool b
  | .lnum q => .vnum q
  | .lstr s => .vstr s
  | .ltable entries => getTable entries
  | .lfunc _ => .vnull
  | .lother => .vnull

def getTable (entries : List (LuaKey × LuaValue)) : HostValue :=
  let acc := getTableLoop entries ⟨[], true, 1⟩
  if acc.isArray && decide (0 < acc.result.length)
  then .varr (acc.result.map Prod.snd)
  else .vrecord acc.result

/-- One lua_next iteration per entry: a numeric key is compared with
arrayIndex (which counts numeric keys only) and coerced to a string when
stored; a string key clears isArray. -/
def getTableLoop : List (LuaKey × LuaValue) → TableAcc → TableAcc
  | [], acc => acc
  | (k, v) :: rest, acc =>
    match k with
    | .knum q =>
      getTableLoop rest
        ⟨objSet acc.result (numToStr q) (getValue v),
         if q = acc.arrayIndex then acc.isArray else false,
         acc.arrayIndex + 1⟩
    | .kstr s =>
      getTableLoop rest ⟨objSet acc.result s (getValue v), false, acc.arrayIndex⟩

end

/-! ### The engine: one fengari lua_State

The engine state is the value stack (head = top, so index -1 is the head),
the globals table (game scripts address globals by name, so string keys
suffice), the code environment resolving guest function ids, and the two
flags of LuaInterpreter: this.L (alive) and this.initialized (inited). -/

/-- The globals table of one engine instance. -/
abbrev GTable := List (String × LuaValue)

/-- Outcome of running one guest function body under lua_pcall: exactly one
return value (the protected call is made with nresults = 1, truncating or
nil-padding), or a runtime error. -/
inductive CallRes where
  | ok (v : LuaValue)
  | err (msg : String)

/-- Semantics of one guest function: arguments and the current globals in,
result and (possibly mutated) globals out.  Guest code can only touch the
globals of its own engine instance. -/
def FuncImpl := List LuaValue → GTable → CallRes × GTable

/-- One LuaInterpreter instance (part_003 lines 28-35): a fresh lua_State
with its own stack and globals.  alive models this.L being non-null, inited
models this.initialized. -/
structure Engine where
  alive : Bool
  inited : Bool
  stack : List LuaValue
  globals : GTable
  env : FuncId → FuncImpl

/-- A guest source text, abstracted by what luaL_dostring does with it: it
either fails (syntax error or top-level runtime error; dostring pushes and
the source pops the message, so the stack is unchanged), or it succeeds
leaving behind the globals the chunk assigned and the code of the functions
it defined.  The Lua compiler itself is engine code, not repository code. -/
inductive Script where
  | bad (msg : String)
  | good (g : GTable) (env : FuncId → FuncImpl)

/-- The constructor: luaL_newstate + luaL_openlibs. -/
def newEngine : Engine :=
  { alive := true, inited := false, stack := [], globals := [],
    env := fun _ => fun _ g => (.err "no such function", g) }

/-- LuaInterpreter.loadScript (lines 37-55): run the chunk; on failure log,
pop the error message and report false; on success set the initialized flag.
The catch branch (a JS exception out of dostring) also reports false. -/
def loadScript (e : Engine) : Script → Bool × Engine
  | .bad _ => (false, e)
  | .good g env => (true, { e with inited := true, globals := g, env := env })

/-- LuaInterpreter.destroy (lines 174-179): close and null out this.L. -/
def destroy (e : Engine) : Engine :=
  if e.alive then { e with alive := false } else e

/-- Reading a global (lua_getglobal): nil when absent. -/
def gtableGet : GTable → String → LuaValue
  | [], _ => .nil
  | (k, v) :: rest, s => if k = s then v else gtableGet rest s

/-- Reading a string field of a table value. -/
def tget : List (LuaKey × LuaValue) → String → LuaValue
  | [], _ => .nil
  | (k, v) :: rest, s => if k = .kstr s then v else tget rest s

/-- JS String.prototype.split(".") on the function path, written structurally
so it evaluates in the kernel. -/
def splitAux : List Char → List Char → List String
  | [], acc => [String.mk acc.reverse]
  | c :: rest, acc =>
    if c = '.' then String.mk acc.reverse :: splitAux rest [] else splitAux rest (c :: acc)

def jsSplitDot (s : String) : List String := splitAux s.data []

/-- What lua_getfield does on a value that is about to be indexed.  A table
is looked up directly (game tables carry no metatables).  A string consults
the string-library metatable, in which none of the lifecycle names exist, so
the read yields nil (string-library members themselves are elided — no
caller of this interpreter looks them up).  Any other non-nil value raises a
Lua error, which fengari surfaces as a JS exception. -/
inductive FieldRes where
  | ok (v : LuaValue)
  | raise

def getfieldOn : LuaValue → String → FieldRes
  | .ltable es, s => .ok (tget es s)
  | .lstr _, _ => .ok .nil
  | _, _ => .raise

/-- Exit of the dotted-path walk of callFunction (lines 66-76): the path
resolved (top of stack holds the value), an intermediate segment was nil
(already popped; the call returns null), or lua_getfield raised and the JS
exception unwound to the catch block with the stack as it stood. -/
inductive WalkOut where
  | done (e : Engine)
  | nilhit (e : Engine)
  | raised (e : Engine)

/-- The for-loop of callFunction: at each step the single pushed value is
checked for nil (pop and bail), then replaced by its field (lua_getfield
followed by lua_remove of the parent). -/
def walkFields (e : Engine) : List String → WalkOut
  | [] => .done e
  | p :: rest =>
    match e.stack with
    | [] => .raised e
    | top :: below =>
      match top with
      | .nil => .nilhit { e with stack := below }
      | _ =>
        match getfieldOn top p with
        | .ok v => walkFields { e with stack := v :: below } rest
        | .raise => .raised e

/-- LuaInterpreter.callFunction (lines 57-103).  Returns the JS value handed
back to the facade (null — vnull — on every failure) and the engine after
the call.  The argument pushes and the pcall pop are balanced and are
modelled by handing the marshaled arguments straight to the guest function;
on success pcall leaves exactly one result which is marshaled and popped.
The raised path models the catch block: it returns null WITHOUT restoring
the stack. -/
def callFunction (e : Engine) (funcPath : String) (args : List HostValue) :
    HostValue × Engine :=
  if e.inited = false then (.vnull, e)
  else
    let parts := jsSplitDot funcPath
    let e1 : Engine := { e with stack := gtableGet e.globals (parts.headD "") :: e.stack }
    match walkFields e1 parts.tail with
    | .nilhit e2 => (.vnull, e2)
    | .raised e2 => (.vnull, e2)
    | .done e2 =>
      match e2.stack with
      | [] => (.vnull, e2)
      | f :: below =>
        match f with
        | .lfunc fid =>
          match e2.env fid (args.map pushValue) e2.globals with
          | (.ok rv, g2) => (getValue rv, { e2 with stack := below, globals := g2 })
          | (.err _, g2) => (.vnull, { e2 with stack := below, globals := g2 })
        | _ => (.vnull, { e2 with stack := below })

/-! ### The game runner facade (createGameRunner, lines 182-232) -/

/-- getDefaultState (lines 221-232): the built-in fallback GameState. -/
def getDefaultState : HostValue :=
  .vrecord [("score", .vnum 0), ("timeRemaining", .vnum 60),
            ("currentChallenge", .vstr ""), ("currentAnswer", .vstr ""),
            ("isPlaying", .vbool false), ("wrongGuesses", .vnum 0),
            ("maxWrongGuesses", .vnum 6), ("hints", .varr [])]

/-- The facade init (lines 191-194): result || getDefaultState(). -/
def runnerInit (e : Engine) : HostValue × Engine :=
  let r := callFunction e "Game.init" []
  (if jsTruthy r.1 then r.1 else getDefaultState, r.2)

/-- The facade start (lines 195-198): result || state. -/
def runnerStart (e : Engine) (state : HostValue) : HostValue × Engine :=
  let r := callFunction e "Game.start" [state]
  (if jsTruthy r.1 then r.1 else state, r.2)

/-- The value triple the facade onInput returns. -/
structure InputResult where
  state : HostValue
  correct : HostValue
  points : HostValue

/-- The facade onInput (lines 199-209): a truthy object result is unpacked
(state falls back from result.state to result itself, correct and points use
nullish coalescing); anything else fails closed. -/
def runnerOnInput (e : Engine) (state : HostValue) (input : String) :
    InputResult × Engine :=
  let r := callFunction e "Game.onInput" [state, .vstr input]
  if jsTruthy r.1 && jsIsObject r.1 then
    ({ state := if jsTruthy (objGet r.1 "state") then objGet r.1 "state" else r.1,
       correct := match objGet r.1 "correct" with | .vnull => .vbool false | c => c,
       points := match objGet r.1 "points" with | .vnull => .vnum 0 | p => p }, r.2)
  else
    ({ state := state, correct := .vbool false, points := .vnum 0 }, r.2)

/-- The facade getNextChallenge (lines 210-213): result || state. -/
def runnerGetNextChallenge (e : Engine) (state : HostValue) : HostValue × Engine :=
  let r := callFunction e "Game.getNextChallenge" [state]
  (if jsTruthy r.1 then r.1 else state, r.2)

/-- The facade getHint (lines 214-217): a string result passes, anything
else becomes the empty string. -/
def runnerGetHint (e : Engine) (state : HostValue) : HostValue × Engine :=
  let r := callFunction e "Game.getHint" [state]
  ((match r.1 with | .vstr s => .vstr s | _ => .vstr ""), r.2)

/-- createGameRunner (lines 182-189), with the engine it leaves behind made
visible: on load failure the engine is destroyed and null is returned;
otherwise the facade closes over the loaded engine. -/
def createGameRunnerAux (script : Script) : Option Engine × Engine :=
  let r := loadScript newEngine script
  if r.1 then (some r.2, r.2) else (none, destroy r.2)

/-- The caller-visible result of createGameRunner: the engine the returned
facade closes over, or none. -/
def createGameRunner (script : Script) : Option Engine :=
  (createGameRunnerAux script).1

/-! ### A world of engines

lua_newstate allocates a fresh, disjoint state per LuaInterpreter; nothing
module-level in the engine library is mutable.  To make isolation statable,
engines live in an addressable world and every facade call writes back only
the engine it was created over. -/

def World := Nat → Engine

/-- Writing back engine i after a call through instance i. -/
def setEngine (w : World) (i : Nat) (e : Engine) : World :=
  fun k => if k = i then e else w k

/-- runner.onInput through the instance at address i. -/
def worldOnInput (w : World) (i : Nat) (state : HostValue) (input : String) :
    InputResult × World :=
  let r := runnerOnInput (w i) state input
  (r.1, setEngine w i r.2)

/-- runner.init through the instance at address i. -/
def worldInit (w : World) (i : Nat) : HostValue × World :=
  let r := runnerInit (w i)
  (r.1, setEngine w i r.2)

/-! ### The array test of getTable, as a predicate on iteration order

getTable flags a table as an array exactly when lua_next yields the numeric
keys 1, 2, ... in that order and nothing else; the flag is computed against
iteration order, not against the key set. -/

/-- True when the keys, in iteration order, are exactly idx, idx+1, ... -/
def isDenseRunFrom : Nat → List (LuaKey × LuaValue) → Bool
  | _, [] => true
  | idx, (k, _) :: rest =>
    if k = LuaKey.knum (idx : ℚ) then isDenseRunFrom (idx + 1) rest else false

/-- True when the table is non-empty and its keys, in iteration order, are
exactly 1 .. N: the condition under which getTable returns an array. -/
def isDenseRun (entries : List (LuaKey × LuaValue)) : Bool :=
  match entries with
  | [] => false
  | _ => isDenseRunFrom 1 entries

/-- The object fields the dense branch accumulates from position m on:
keys "m+1", "m+2", ... with the marshaled values. -/
def denseConv : Nat → List (LuaKey × LuaValue) → List (String × HostValue)
  | _, [] => []
  | m, (_, v) :: rest => (decStr (m + 1), getValue v) :: denseConv (m + 1) rest

/-! ### Concrete engines used by the closed theorems -/

/-- An initialized engine whose global Game is the number 5: walking the path
Game.init makes lua_getfield raise (a number cannot be indexed). -/
def engineGameNumber : Engine :=
  { alive := true, inited := true, stack := [], globals := [("Game", .lnum 5)],
    env := fun _ => fun _ g => (.err "", g) }

/-- An initialized engine whose Game.onInput always raises a runtime error. -/
def engineRaise : Engine :=
  { alive := true, inited := true, stack := [],
    globals := [("Game", .ltable [(.kstr "onInput", .lfunc 0)])],
    env := fun _ => fun _ g => (.err "script error", g) }

/-- An initialized engine with no Game table at all. -/
def engineNoGame : Engine :=
  { alive := true, inited := true, stack := [], globals := [],
    env := fun _ => fun _ g => (.err "", g) }

/-- An initialized engine whose Game.init returns the number 7. -/
def engineInitNumber : Engine :=
  { alive := true, inited := true, stack := [],
    globals := [("Game", .ltable [(.kstr "init", .lfunc 0)])],
    env := fun _ => fun _ g => (.ok (.lnum 7), g) }

/-- An initialized engine whose init, start and getNextChallenge all succeed
and return the guest value false. -/
def engineFalsy : Engine :=
  { alive := true, inited := true, stack := [],
    globals := [("Game", .ltable [(.kstr "init", .lfunc 0), (.kstr "start", .lfunc 1),
                                  (.kstr "getNextChallenge", .lfunc 2)])],
    env := fun _ => fun _ g => (.ok (.lbool false), g) }

/-- The table Game.onInput returns in the unpacking witness. -/
def replyTable : LuaValue :=
  .ltable [(.kstr "state", .ltable [(.kstr "s", .lnum 1)]),
           (.kstr "correct", .lbool true), (.kstr "points", .lnum 10)]

/-- An initialized engine whose Game.onInput returns replyTable. -/
def engineReply : Engine :=
  { alive := true, inited := true, stack := [],
    globals := [("Game", .ltable [(.kstr "onInput", .lfunc 0)])],
    env := fun _ => fun _ g => (.ok replyTable, g) }

/-- An initialized engine whose Game.onInput returns the string "yes"
(truthy but not an object). -/
def engineReplyString : Engine :=
  { alive := true, inited := true, stack := [],
    globals := [("Game", .ltable [(.kstr "onInput", .lfunc 0)])],
    env := fun _ => fun _ g => (.ok (.lstr "yes"), g) }

/-- Globals of the first isolation-witness script: Game with onInput and init. -/
def isoGlobalsA : GTable :=
  [("Game", .ltable [(.kstr "onInput", .lfunc 0), (.kstr "init", .lfunc 1)])]

/-- Code of the first isolation-witness script: onInput mutates a global and
reports a correct answer; init returns a fresh state table. -/
def isoEnvA : FuncId → FuncImpl :=
  fun fid => fun _ g =>
    if fid = 0 then (.ok (.ltable [(.kstr "correct", .lbool true)]), ("mutated", .lnum 1) :: g)
    else (.ok (.ltable [(.kstr "score", .lnum 0)]), g)

/-- Globals of the second isolation-witness script. -/
def isoGlobalsB : GTable :=
  [("Game", .ltable [(.kstr "init", .lfunc 0)])]

/-- Code of the second isolation-witness script: init returns a state table. -/
def isoEnvB : FuncId → FuncImpl :=
  fun _ => fun _ g => (.ok (.ltable [(.kstr "score", .lnum 5)]), g)

/-- The engine the first isolation script loads into. -/
def isoEngineA : Engine :=
  { alive := true, inited := true, stack := [], globals := isoGlobalsA, env := isoEnvA }

/-- The engine the second isolation script loads into. -/
def isoEngineB : Engine :=
  { alive := true, inited := true, stack := [], globals := isoGlobalsB, env := isoEnvB }

/-- A world holding the two isolation-witness engines at addresses 0 and 1. -/
def isoWorld : World := fun k => if k = 0 then isoEngineA else isoEngineB

/-! ### How callFunction behaves on the two-segment lifecycle paths -/

theorem callFunction_root_nil (e : Engine) (he : e.inited = true)
    (path root name : String) (hsplit : jsSplitDot path = [root, name])
    (args : List HostValue) (hg : gtableGet e.globals root = .nil) :
    callFunction e path args = (.vnull, e) := by
  obtain ⟨al, ini, st, gl, envf⟩ := e
  simp only [Engine.inited] at he
  subst he
  simp only [Engine.globals] at hg
  simp [callFunction, hsplit, hg, walkFields]

theorem callFunction_not_function (e : Engine) (he : e.inited = true)
    (path root name : String) (hsplit : jsSplitDot path = [root, name])
    (args : List HostValue) (es : List (LuaKey × LuaValue))
    (hg : gtableGet e.globals root = .ltable es)
    (hf : ∀ fid, tget es name ≠ .lfunc fid) :
    callFunction e path args = (.vnull, e) := by
  obtain ⟨al, ini, st, gl, envf⟩ := e
  simp only [Engine.inited] at he
  subst he
  simp only [Engine.globals] at hg
  match htv : tget es name with
  | .nil => simp [callFunction, hsplit, hg, walkFields, getfieldOn, htv]
  | .lbool b => simp [callFunction, hsplit, hg, walkFields, getfieldOn, htv]
  | .lnum q => simp [callFunction, hsplit, hg, walkFields, getfieldOn, htv]
  | .lstr s => simp [callFunction, hsplit, hg, walkFields, getfieldOn, htv]
  | .ltable es2 => simp [callFunction, hsplit, hg, walkFields, getfieldOn, htv]
  | .lfunc fid => exact absurd htv (hf fid)
  | .lother => simp [callFunction, hsplit, hg, walkFields, getfieldOn, htv]

theorem callFunction_pcall_err (e : Engine) (he : e.inited = true)
    (path root name : String) (hsplit : jsSplitDot path = [root, name])
    (args : List HostValue) (es : List (LuaKey × LuaValue)) (fid : FuncId)
    (msg : String) (g2 : GTable)
    (hg : gtableGet e.globals root = .ltable es)
    (hf : tget es name = .lfunc fid)
    (hc : e.env fid (args.map pushValue) e.globals = (.err msg, g2)) :
    callFunction e path args = (.vnull, { e with globals := g2 }) := by
  obtain ⟨al, ini, st, gl, envf⟩ := e
  simp only [Engine.inited] at he
  subst he
  simp only [Engine.globals] at hg
  simp only [Engine.env, Engine.globals] at hc
  simp [callFunction, hsplit, hg, walkFields, getfieldOn, hf, hc]

theorem callFunction_pcall_ok (e : Engine) (he : e.inited = true)
    (path root name : String) (hsplit : jsSplitDot path = [root, name])
    (args : List HostValue) (es : List (LuaKey × LuaValue)) (fid : FuncId)
    (rv : LuaValue) (g2 : GTable)
    (hg : gtableGet e.globals root = .ltable es)
    (hf : tget es name = .lfunc fid)
    (hc : e.env fid (args.map pushValue) e.globals = (.ok rv, g2)) :
    callFunction e path args = (getValue rv, { e with globals := g2 }) := by
  obtain ⟨al, ini, st, gl, envf⟩ := e
  simp only [Engine.inited] at he
  subst he
  simp only [Engine.globals] at hg
  simp only [Engine.env, Engine.globals] at hc
  simp [callFunction, hsplit, hg, walkFields, getfieldOn, hf, hc]

theorem jsSplitDot_gameInit : jsSplitDot "Game.init" = ["Game", "init"] := by decide
theorem jsSplitDot_gameStart : jsSplitDot "Game.start" = ["Game", "start"] := by decide
theorem jsSplitDot_gameOnInput : jsSplitDot "Game.onInput" = ["Game", "onInput"] := by decide
theorem jsSplitDot_gameGetNext :
    jsSplitDot "Game.getNextChallenge" = ["Game", "getNextChallenge"] := by decide

/-- C1.  The round-trip claim fails on the code: pushValue enumerates a JS
array with Object.entries, whose keys are the index STRINGS "0", "1", ...,
while the array-detection rule of getTable looks for the numeric keys
1 .. N.  The one-element host sequence ["a"] therefore marshals into the
guest and back as the record with the single field "0" — not as itself, and
well outside the documented empty-sequence exception. -/
theorem roundtrip_nonempty_sequence_fails :
    getValue (pushValue (.varr [.vstr "a"])) = .vrecord [("0", .vstr "a")]
    ∧ HostValue.vrecord [("0", .vstr "a")] ≠ HostValue.varr [.vstr "a"] := by
  refine ⟨?_, fun h => HostValue.noConfusion h⟩
  simp [pushValue, pushElems, getValue, getTable, getTableLoop, objSet]
  decide

/-- C6.  The stack-restoration claim fails on the catch exit path: with the
global Game bound to the number 5, resolving "Game.init" makes lua_getfield
raise, the JS exception lands in the catch block, null is returned — and the
value pushed by lua_getglobal is still on the stack, one slot above the
pre-call depth. -/
theorem callFunction_catch_leaks_stack :
    (callFunction engineGameNumber "Game.init" []).1 = .vnull
    ∧ ((callFunction engineGameNumber "Game.init" []).2).stack.length
        = engineGameNumber.stack.length + 1 := by
  constructor <;> rfl

/-- C7.  The engine teardown operation: destroy leaves the lua_State closed
(this.L nulled) whatever state it was in.  The facade object createGameRunner
returns does not expose it — see the claim record. -/
theorem destroy_closes_engine (e : Engine) : (destroy e).alive = false := by
  by_cases h : e.alive <;> simp [destroy, h]

/-- C5.  A source text that fails to load yields null from createGameRunner
and the engine created on the way is destroyed; loading a good script
returns a facade over an initialized engine, and — the embedding being a
pure function of the script — a failed load leaves nothing behind that a
later call could observe. -/
theorem createGameRunner_load_failure_null :
    (∀ msg, createGameRunner (.bad msg) = none
      ∧ ((createGameRunnerAux (.bad msg)).2).alive = false)
    ∧ ∀ g envf, ∃ e, createGameRunner (.good g envf) = some e ∧ e.inited = true := by
  exact ⟨fun msg => ⟨rfl, rfl⟩, fun g envf => ⟨_, rfl, rfl⟩⟩

/-- C3.  onInput fails closed: whenever Game.onInput is missing (Game nil),
resolves to a non-function, or raises during the protected call, the facade
returns the input state unchanged with correct false and points 0, for every
state and every input string.  The model is a total function, so no
host-level exception can escape. -/
theorem onInput_fails_closed (e : Engine) (he : e.inited = true)
    (s : HostValue) (input : String)
    (h : gtableGet e.globals "Game" = .nil
       ∨ (∃ es, gtableGet e.globals "Game" = .ltable es ∧ ∀ fid, tget es "onInput" ≠ .lfunc fid)
       ∨ (∃ es fid msg g2, gtableGet e.globals "Game" = .ltable es
            ∧ tget es "onInput" = .lfunc fid
            ∧ e.env fid [pushValue s, .lstr input] e.globals = (.err msg, g2))) :
    (runnerOnInput e s input).1 = ⟨s, .vbool false, .vnum 0⟩ := by
  rcases h with hnil | ⟨es, hg, hf⟩ | ⟨es, fid, msg, g2, hg, hf, hc⟩
  · have hcall := callFunction_root_nil e he _ "Game" "onInput" jsSplitDot_gameOnInput
      [s, .vstr input] hnil
    simp [runnerOnInput, hcall, jsTruthy, jsIsObject]
  · have hcall := callFunction_not_function e he _ "Game" "onInput" jsSplitDot_gameOnInput
      [s, .vstr input] es hg hf
    simp [runnerOnInput, hcall, jsTruthy, jsIsObject]
  · have hmap : [s, HostValue.vstr input].map pushValue = [pushValue s, .lstr input] := by
      simp [pushValue]
    have hcall := callFunction_pcall_err e he _ "Game" "onInput" jsSplitDot_gameOnInput
      [s, .vstr input] es fid msg g2 hg hf (by rw [hmap]; exact hc)
    simp [runnerOnInput, hcall, jsTruthy, jsIsObject]

/-- Witness for C3: an engine whose onInput always raises, called with the
empty string and with a 1000-character string. -/
theorem onInput_fails_closed_witness :
    (runnerOnInput engineRaise (.vrecord []) "").1 = ⟨.vrecord [], .vbool false, .vnum 0⟩
    ∧ (runnerOnInput engineRaise (.vrecord [])
        (String.mk (List.replicate 1000 'a'))).1
      = ⟨.vrecord [], .vbool false, .vnum 0⟩ := by
  constructor
  · exact onInput_fails_closed engineRaise rfl _ ""
      (Or.inr (Or.inr ⟨_, 0, "script error", _, rfl, rfl, rfl⟩))
  · exact onInput_fails_closed engineRaise rfl _ _
      (Or.inr (Or.inr ⟨_, 0, "script error", _, rfl, rfl, rfl⟩))

/-- C4, counterexample.  The claim fails on the code: a Game.init that
returns the number 7 — a value that does not marshal to a record — is passed
straight through by runner.init (7 is truthy, so result || default keeps
it), instead of being replaced by the built-in default state. -/
theorem init_nonrecord_passthrough :
    (runnerInit engineInitNumber).1 = .vnum 7 ∧ HostValue.vnum 7 ≠ getDefaultState := by
  refine ⟨?_, fun h => HostValue.noConfusion h⟩
  have hcall := callFunction_pcall_ok engineInitNumber rfl _ "Game" "init" jsSplitDot_gameInit
    [] _ 0 (.lnum 7) _ rfl rfl rfl
  simp [runnerInit, hcall, getValue, jsTruthy]

/-- C4, amended.  When Game.init fails to call (missing, not callable, or
raising) or returns a value marshaling to a JS-falsy result, runner.init
substitutes the built-in default GameState — score 0, timeRemaining the
fixed constant 60 (metadata duration is not consulted: runner.init has no
access to metadata), empty challenge and answer, isPlaying false,
wrongGuesses 0, maxWrongGuesses 6, empty hints; a truthy result, record or
not, is returned as-is. -/
theorem init_default_fallback (e : Engine) (he : e.inited = true) :
    ((gtableGet e.globals "Game" = .nil
        ∨ (∃ es, gtableGet e.globals "Game" = .ltable es ∧ ∀ fid, tget es "init" ≠ .lfunc fid)
        ∨ (∃ es fid msg g2, gtableGet e.globals "Game" = .ltable es ∧ tget es "init" = .lfunc fid
             ∧ e.env fid [] e.globals = (.err msg, g2))
        ∨ (∃ es fid v g2, gtableGet e.globals "Game" = .ltable es ∧ tget es "init" = .lfunc fid
             ∧ e.env fid [] e.globals = (.ok v, g2) ∧ jsTruthy (getValue v) = false)) →
      (runnerInit e).1 = .vrecord [("score", .vnum 0), ("timeRemaining", .vnum 60),
        ("currentChallenge", .vstr ""), ("currentAnswer", .vstr ""), ("isPlaying", .vbool false),
        ("wrongGuesses", .vnum 0), ("maxWrongGuesses", .vnum 6), ("hints", .varr [])])
    ∧ (∀ es fid v g2, gtableGet e.globals "Game" = .ltable es → tget es "init" = .lfunc fid →
        e.env fid [] e.globals = (.ok v, g2) → jsTruthy (getValue v) = true →
        (runnerInit e).1 = getValue v) := by
  constructor
  · intro h
    rcases h with hnil | ⟨es, hg, hf⟩ | ⟨es, fid, msg, g2, hg, hf, hc⟩
      | ⟨es, fid, v, g2, hg, hf, hc, hT⟩
    · have hcall := callFunction_root_nil e he _ "Game" "init" jsSplitDot_gameInit [] hnil
      simp [runnerInit, hcall, jsTruthy, getDefaultState]
    · have hcall := callFunction_not_function e he _ "Game" "init" jsSplitDot_gameInit [] es hg hf
      simp [runnerInit, hcall, jsTruthy, getDefaultState]
    · have hcall := callFunction_pcall_err e he _ "Game" "init" jsSplitDot_gameInit [] es fid
        msg g2 hg hf hc
      simp [runnerInit, hcall, jsTruthy, getDefaultState]
    · have hcall := callFunction_pcall_ok e he _ "Game" "init" jsSplitDot_gameInit [] es fid
        v g2 hg hf hc
      simp [runnerInit, hcall, hT, getDefaultState]
  · intro es fid v g2 hg hf hc hT
    have hcall := callFunction_pcall_ok e he _ "Game" "init" jsSplitDot_gameInit [] es fid
      v g2 hg hf hc
    simp [runnerInit, hcall, hT]

/-- Witness for C4: an engine with no Game table gets the default state;
one whose init returns the number 7 gets 7 back. -/
theorem init_default_fallback_witness :
    (runnerInit engineNoGame).1 = .vrecord [("score", .vnum 0), ("timeRemaining", .vnum 60),
        ("currentChallenge", .vstr ""), ("currentAnswer", .vstr ""), ("isPlaying", .vbool false),
        ("wrongGuesses", .vnum 0), ("maxWrongGuesses", .vnum 6), ("hints", .varr [])]
    ∧ (runnerInit engineInitNumber).1 = .vnum 7 := by
  constructor
  · exact (init_default_fallback engineNoGame rfl).1 (Or.inl rfl)
  · have h := (init_default_fallback engineInitNumber rfl).2 _ 0 (.lnum 7) _ rfl rfl rfl
      (by simp [getValue, jsTruthy])
    rw [h]
    simp [getValue]

/-- C10.  A guest lifecycle call that SUCCEEDS but returns a JS-falsy value
(nil, false, 0, or the empty string) is indistinguishable from a failed
call: init substitutes the default state, start and getNextChallenge return
the input state unchanged. -/
theorem falsy_guest_results_use_fallbacks (e : Engine) (he : e.inited = true)
    (v : LuaValue) (hv : v = .nil ∨ v = .lbool false ∨ v = .lnum 0 ∨ v = .lstr "") :
    (∀ es fid g2, gtableGet e.globals "Game" = .ltable es → tget es "init" = .lfunc fid →
        e.env fid [] e.globals = (.ok v, g2) → (runnerInit e).1 = getDefaultState)
    ∧ (∀ s es fid g2, gtableGet e.globals "Game" = .ltable es → tget es "start" = .lfunc fid →
        e.env fid [pushValue s] e.globals = (.ok v, g2) → (runnerStart e s).1 = s)
    ∧ (∀ s es fid g2, gtableGet e.globals "Game" = .ltable es →
        tget es "getNextChallenge" = .lfunc fid →
        e.env fid [pushValue s] e.globals = (.ok v, g2) →
        (runnerGetNextChallenge e s).1 = s) := by
  have hT : jsTruthy (getValue v) = false := by
    rcases hv with rfl | rfl | rfl | rfl <;> simp [getValue, jsTruthy]
  refine ⟨fun es fid g2 hg hf hc => ?_, fun s es fid g2 hg hf hc => ?_,
    fun s es fid g2 hg hf hc => ?_⟩
  · have hcall := callFunction_pcall_ok e he _ "Game" "init" jsSplitDot_gameInit [] es fid
      v g2 hg hf hc
    simp [runnerInit, hcall, hT]
  · have hmap : [s].map pushValue = [pushValue s] := by simp
    have hcall := callFunction_pcall_ok e he _ "Game" "start" jsSplitDot_gameStart [s] es fid
      v g2 hg hf (by rw [hmap]; exact hc)
    simp [runnerStart, hcall, hT]
  · have hmap : [s].map pushValue = [pushValue s] := by simp
    have hcall := callFunction_pcall_ok e he _ "Game" "getNextChallenge" jsSplitDot_gameGetNext
      [s] es fid v g2 hg hf (by rw [hmap]; exact hc)
    simp [runnerGetNextChallenge, hcall, hT]

/-- Witness for C10: an engine whose init, start and getNextChallenge all
succeed and return the guest value false. -/
theorem falsy_guest_results_use_fallbacks_witness :
    (runnerInit engineFalsy).1 = getDefaultState
    ∧ (runnerStart engineFalsy (.vrecord [("score", .vnum 3)])).1 = .vrecord [("score", .vnum 3)]
    ∧ (runnerGetNextChallenge engineFalsy (.vstr "keep")).1 = .vstr "keep" := by
  refine ⟨?_, ?_, ?_⟩
  · exact (falsy_guest_results_use_fallbacks engineFalsy rfl (.lbool false)
      (Or.inr (Or.inl rfl))).1 _ 0 _ rfl rfl rfl
  · exact (falsy_guest_results_use_fallbacks engineFalsy rfl (.lbool false)
      (Or.inr (Or.inl rfl))).2.1 _ _ 1 _ rfl rfl rfl
  · exact (falsy_guest_results_use_fallbacks engineFalsy rfl (.lbool false)
      (Or.inr (Or.inl rfl))).2.2 _ _ 2 _ rfl rfl rfl

/-- C9.  When Game.onInput succeeds: a result marshaling to an object is
unpacked — the state is the result.state field when that field is truthy and
the whole result otherwise, correct defaults to false and points to 0 under
nullish coalescing — and a truthy non-object result takes the full fallback
with the input state, correct false and points 0. -/
theorem onInput_unpacks_object (e : Engine) (he : e.inited = true)
    (s : HostValue) (input : String) (es : List (LuaKey × LuaValue)) (fid : FuncId)
    (rv : LuaValue) (g2 : GTable)
    (hg : gtableGet e.globals "Game" = .ltable es)
    (hf : tget es "onInput" = .lfunc fid)
    (hc : e.env fid [pushValue s, .lstr input] e.globals = (.ok rv, g2)) :
    (jsIsObject (getValue rv) = true →
      (runnerOnInput e s input).1 =
        ⟨if jsTruthy (objGet (getValue rv) "state") = true then objGet (getValue rv) "state"
           else getValue rv,
         match objGet (getValue rv) "correct" with | .vnull => .vbool false | c => c,
         match objGet (getValue rv) "points" with | .vnull => .vnum 0 | p => p⟩)
    ∧ (jsIsObject (getValue rv) = false → jsTruthy (getValue rv) = true →
      (runnerOnInput e s input).1 = ⟨s, .vbool false, .vnum 0⟩) := by
  have hmap : [s, HostValue.vstr input].map pushValue = [pushValue s, .lstr input] := by
    simp [pushValue]
  have hcall := callFunction_pcall_ok e he _ "Game" "onInput" jsSplitDot_gameOnInput
    [s, .vstr input] es fid rv g2 hg hf (by rw [hmap]; exact hc)
  constructor
  · intro hobj
    have htruthy : jsTruthy (getValue rv) = true := by
      cases h2 : getValue rv <;> simp_all [jsIsObject, jsTruthy]
    simp [runnerOnInput, hcall, hobj, htruthy]
  · intro hobj htruthy
    simp [runnerOnInput, hcall, hobj, htruthy]

/-- Witness for C9: a table result with state, correct and points fields is
unpacked; a string result takes the fallback. -/
theorem onInput_unpacks_object_witness :
    (runnerOnInput engineReply (.vrecord []) "cat").1
      = ⟨.vrecord [("s", .vnum 1)], .vbool true, .vnum 10⟩
    ∧ (runnerOnInput engineReplyString (.vrecord []) "cat").1
      = ⟨.vrecord [], .vbool false, .vnum 0⟩ := by
  have hv : getValue replyTable =
      .vrecord [("state", .vrecord [("s", .vnum 1)]), ("correct", .vbool true),
                ("points", .vnum 10)] := by
    simp [replyTable, getValue, getTable, getTableLoop, objSet]
  constructor
  · have h := (onInput_unpacks_object engineReply rfl (.vrecord []) "cat" _ 0 replyTable _
      rfl rfl rfl).1 (by rw [hv]; rfl)
    rw [h, hv]
    simp [objGet, objGet.go, jsTruthy]
  · exact (onInput_unpacks_object engineReplyString rfl (.vrecord []) "cat" _ 0 (.lstr "yes") _
      rfl rfl rfl).2 (by simp [getValue, jsIsObject]) (by simp [getValue, jsTruthy])

/-- C8.  Isolation: every facade call writes back only the engine it was
created over (each LuaInterpreter owns a fresh lua_State), so an onInput
through one runner leaves the result of the other runner's next init
untouched, whatever the two scripts are. -/
theorem engine_instance_isolation (sc1 sc2 : Script) (e1 e2 : Engine)
    (_h1 : createGameRunner sc1 = some e1) (_h2 : createGameRunner sc2 = some e2)
    (w : World) (i j : Nat) (hij : i ≠ j) (_hwi : w i = e1) (_hwj : w j = e2)
    (s : HostValue) (input : String) :
    (worldInit (worldOnInput w i s input).2 j).1 = (worldInit w j).1 := by
  simp [worldInit, worldOnInput, setEngine, hij.symm]

/-- Witness for C8: two concrete runners, the first of which mutates its own
globals on every onInput; the result of init on the second is the same
before and after. -/
theorem engine_instance_isolation_witness :
    ((worldInit (worldOnInput isoWorld 0 (.vrecord []) "x").2 1).1 = (worldInit isoWorld 1).1)
    ∧ (worldInit isoWorld 1).1 = .vrecord [("score", .vnum 5)] := by
  constructor
  · exact engine_instance_isolation (.good isoGlobalsA isoEnvA) (.good isoGlobalsB isoEnvB)
      isoEngineA isoEngineB rfl rfl isoWorld 0 1 (by decide) rfl rfl (.vrecord []) "x"
  · have hcall := callFunction_pcall_ok isoEngineB rfl _ "Game" "init" jsSplitDot_gameInit
      [] _ 0 (.ltable [(.kstr "score", .lnum 5)]) _ rfl rfl rfl
    have hv : getValue (.ltable [(.kstr "score", .lnum 5)]) = .vrecord [("score", .vnum 5)] := by
      simp [getValue, getTable, getTableLoop, objSet]
    simp [worldInit, runnerInit, isoWorld, hcall, hv, jsTruthy]

/-! ### The table disambiguation rule (C2) -/

theorem objSet_fst_mem (fields : List (String × HostValue)) (k : String) (v : HostValue)
    (s : String) :
    s ∈ (objSet fields k v).map Prod.fst ↔ s ∈ fields.map Prod.fst ∨ s = k := by
  induction fields with
  | nil => simp [objSet]
  | cons p rest ih =>
    obtain ⟨k2, v2⟩ := p
    by_cases h : k2 = k
    · subst h
      simp [objSet]
      tauto
    · simp [objSet, h, ih]
      tauto

theorem objSet_fresh (fields : List (String × HostValue)) (k : String) (v : HostValue)
    (h : k ∉ fields.map Prod.fst) : objSet fields k v = fields ++ [(k, v)] := by
  induction fields with
  | nil => simp [objSet]
  | cons p rest ih =>
    obtain ⟨k2, v2⟩ := p
    simp only [List.map_cons, List.mem_cons] at h
    push_neg at h
    simp [objSet, Ne.symm h.1, ih h.2]

theorem getTableLoop_isArray (entries : List (LuaKey × LuaValue)) :
    ∀ (fields : List (String × HostValue)) (b : Bool) (idx : Nat),
      (getTableLoop entries ⟨fields, b, (idx : ℚ)⟩).isArray
        = (b && isDenseRunFrom idx entries) := by
  induction entries with
  | nil => intro fields b idx; simp [getTableLoop, isDenseRunFrom]
  | cons p rest ih =>
    intro fields b idx
    obtain ⟨k, v⟩ := p
    have hcast : ((idx : ℚ) + 1) = ((idx + 1 : Nat) : ℚ) := by push_cast; ring
    match k with
    | .knum q =>
      by_cases hq : q = (idx : ℚ)
      · subst hq
        rw [getTableLoop]
        simp only [if_pos rfl, hcast, ih]
        rw [isDenseRunFrom, if_pos rfl]
        simp
      · rw [getTableLoop]
        simp only [if_neg hq, hcast, ih]
        rw [isDenseRunFrom, if_neg (by simp [hq])]
        simp
    | .kstr s =>
      rw [getTableLoop]
      simp only [hcast, ih]
      rw [isDenseRunFrom]
      simp

theorem getTableLoop_keys_mem (entries : List (LuaKey × LuaValue)) :
    ∀ acc s, s ∈ (getTableLoop entries acc).result.map Prod.fst
      ↔ s ∈ acc.result.map Prod.fst ∨ ∃ p ∈ entries, jsKeyOf p.1 = s := by
  induction entries with
  | nil => intro acc s; simp [getTableLoop]
  | cons p rest ih =>
    intro acc s
    obtain ⟨k, v⟩ := p
    match k with
    | .knum q =>
      simp only [getTableLoop, ih, objSet_fst_mem, jsKeyOf]
      constructor
      · rintro ((h | h) | h)
        · exact Or.inl h
        · exact Or.inr ⟨⟨.knum q, v⟩, by simp [jsKeyOf, h.symm]⟩
        · obtain ⟨p2, hp2, hk2⟩ := h
          exact Or.inr ⟨p2, by simp [hp2], hk2⟩
      · rintro (h | ⟨p2, hp2, hk2⟩)
        · exact Or.inl (Or.inl h)
        · rcases List.mem_cons.mp hp2 with rfl | hmem
          · exact Or.inl (Or.inr (by simpa [jsKeyOf] using hk2.symm))
          · exact Or.inr ⟨p2, hmem, hk2⟩
    | .kstr str =>
      simp only [getTableLoop, ih, objSet_fst_mem, jsKeyOf]
      constructor
      · rintro ((h | h) | h)
        · exact Or.inl h
        · exact Or.inr ⟨⟨.kstr str, v⟩, by simp [jsKeyOf, h.symm]⟩
        · obtain ⟨p2, hp2, hk2⟩ := h
          exact Or.inr ⟨p2, by simp [hp2], hk2⟩
      · rintro (h | ⟨p2, hp2, hk2⟩)
        · exact Or.inl (Or.inl h)
        · rcases List.mem_cons.mp hp2 with rfl | hmem
          · exact Or.inl (Or.inr (by simpa [jsKeyOf] using hk2.symm))
          · exact Or.inr ⟨p2, hmem, hk2⟩

theorem denseConv_snd (entries : List (LuaKey × LuaValue)) :
    ∀ m, (denseConv m entries).map Prod.snd = entries.map (fun p => getValue p.2) := by
  induction entries with
  | nil => intro m; simp [denseConv]
  | cons p rest ih => intro m; obtain ⟨k, v⟩ := p; simp [denseConv, ih]

theorem denseConv_length (entries : List (LuaKey × LuaValue)) :
    ∀ m, (denseConv m entries).length = entries.length := by
  induction entries with
  | nil => intro m; simp [denseConv]
  | cons p rest ih => intro m; obtain ⟨k, v⟩ := p; simp [denseConv, ih]

theorem getTableLoop_dense (entries : List (LuaKey × LuaValue)) :
    ∀ (m : Nat) (fields : List (String × HostValue)),
      fields.map Prod.fst = (List.range' 1 m).map decStr →
      isDenseRunFrom (m + 1) entries = true →
      getTableLoop entries ⟨fields, true, ((m + 1 : Nat) : ℚ)⟩
        = ⟨fields ++ denseConv m entries, true, ((m + entries.length + 1 : Nat) : ℚ)⟩ := by
  induction entries with
  | nil =>
    intro m fields hkeys hdense
    simp [getTableLoop, denseConv]
  | cons p rest ih =>
    intro m fields hkeys hdense
    obtain ⟨k, v⟩ := p
    rw [isDenseRunFrom] at hdense
    by_cases hk : k = LuaKey.knum ((m + 1 : Nat) : ℚ)
    · subst hk
      rw [if_pos rfl] at hdense
      have hfresh : decStr (m + 1) ∉ fields.map Prod.fst := by
        rw [hkeys]
        intro hmem
        simp only [List.mem_map] at hmem
        obtain ⟨x, hx, heq⟩ := hmem
        have hxeq := decStr_injective heq
        rw [List.mem_range'_1] at hx
        omega
      have hidx : ((m + 1 : Nat) : ℚ) + 1 = ((m + 1 + 1 : Nat) : ℚ) := by push_cast; ring
      have hkeys2 : (fields ++ [(decStr (m + 1), getValue v)]).map Prod.fst
          = (List.range' 1 (m + 1)).map decStr := by
        rw [List.map_append, hkeys, List.range'_concat]
        simp [Nat.add_comm 1 m]
      rw [getTableLoop]
      rw [numToStr_natCast, objSet_fresh fields _ _ hfresh, if_pos rfl, hidx]
      rw [ih (m + 1) _ hkeys2 hdense]
      have harr : ((m + 1 + rest.length + 1 : Nat) : ℚ)
          = ((m + ((LuaKey.knum ((m + 1 : Nat) : ℚ), v) :: rest).length + 1 : Nat) : ℚ) := by
        simp only [List.length_cons]
        congr 1
        omega
      rw [harr]
      simp only [denseConv, List.append_assoc, List.singleton_append]
    · rw [if_neg hk] at hdense
      exact absurd hdense (by simp)

/-- C2, amended.  The disambiguation rule of getTable over the iteration the
engine presents: a table with zero keys becomes the empty record; a table
whose lua_next iteration yields exactly the numeric keys 1 .. N in that
order becomes the ordered sequence of its marshaled values in iteration
order; any other iteration — a non-integer or string key anywhere, or
integer keys not visited as the ascending dense run, including a dense key
SET visited out of order — becomes, without crashing (the conversion is a
total function, hence also deterministic), a record whose keys are exactly
the string representations of the keys present. -/
theorem getTable_disambiguation :
    getTable [] = .vrecord []
    ∧ (∀ entries, isDenseRun entries = true →
        getTable entries = .varr (entries.map (fun p => getValue p.2)))
    ∧ (∀ entries, isDenseRun entries = false →
        ∃ fields, getTable entries = .vrecord fields
          ∧ ∀ s, s ∈ fields.map Prod.fst ↔ ∃ p ∈ entries, jsKeyOf p.1 = s) := by
  refine ⟨by simp [getTable, getTableLoop], ?_, ?_⟩
  · intro entries hdense
    match entries with
    | p :: rest =>
      have h1 : isDenseRunFrom (0 + 1) (p :: rest) = true := by
        simpa [isDenseRun] using hdense
      have hloop := getTableLoop_dense (p :: rest) 0 [] (by simp) h1
      have hc : ((0 + 1 : Nat) : ℚ) = 1 := by norm_num
      rw [hc] at hloop
      rw [getTable]
      simp only [hloop]
      simp [denseConv_snd, denseConv_length]
  · intro entries hfalse
    match entries with
    | [] => exact ⟨[], by simp [getTable, getTableLoop], by simp⟩
    | p :: rest =>
      have hdf : isDenseRunFrom 1 (p :: rest) = false := by simpa [isDenseRun] using hfalse
      have hisarr := getTableLoop_isArray (p :: rest) [] true 1
      rw [Nat.cast_one, hdf] at hisarr
      refine ⟨(getTableLoop (p :: rest) ⟨[], true, 1⟩).result, ?_, ?_⟩
      · rw [getTable]
        simp [hisarr]
      · intro s
        simpa using getTableLoop_keys_mem (p :: rest) ⟨[], true, 1⟩ s

/-- C2, counterexample.  A table whose key set is exactly the dense run
{1, 2} but whose iteration visits 2 before 1 (the engine iterates tables in
insertion order, and the table-walk API promises no order) converts to a
RECORD, not to the ordered sequence of its values in key order that the
claim requires. -/
theorem dense_keyset_out_of_order_is_record :
    getTable [(.knum 2, .lstr "b"), (.knum 1, .lstr "a")]
      = .vrecord [("2", .vstr "b"), ("1", .vstr "a")]
    ∧ HostValue.vrecord [("2", .vstr "b"), ("1", .vstr "a")]
      ≠ .varr [.vstr "a", .vstr "b"] := by
  refine ⟨?_, fun h => HostValue.noConfusion h⟩
  simp only [getValue, getTable, getTableLoop, objSet, numToStr, intStr, decStr, decChars,
    decDigit]
  norm_num
  decide

/-- Witness for C2: an in-order dense table becomes a sequence; a
string-keyed table becomes a record keyed by its keys. -/
theorem getTable_disambiguation_witness :
    (isDenseRun [(.knum 1, .lstr "a"), (.knum 2, .lnum 3)] = true
      ∧ getTable [(.knum 1, .lstr "a"), (.knum 2, .lnum 3)] = .varr [.vstr "a", .vnum 3])
    ∧ (isDenseRun [(.kstr "x", .nil)] = false
      ∧ ∃ fields, getTable [(.kstr "x", .nil)] = .vrecord fields
          ∧ ∀ s, s ∈ fields.map Prod.fst
              ↔ ∃ p ∈ [(LuaKey.kstr "x", LuaValue.nil)], jsKeyOf p.1 = s) := by
  constructor
  · refine ⟨by decide, ?_⟩
    have h := getTable_disambiguation.2.1 [(.knum 1, .lstr "a"), (.knum 2, .lnum 3)] (by decide)
    rw [h]
    simp [getValue]
  · exact ⟨by decide, getTable_disambiguation.2.2 [(.kstr "x", .nil)] (by decide)⟩

end SquadParty
